import Mathlib

/-!
LocusMarket — verification of the simulation lifecycle controller and market tick engine

A shallow embedding of the core of the LocusMarket repository:

* `PricingEngine.calculatePriceChange`  (src/simulation/market/PricingEngine.js)
* `MarketEngine.sanitizeDecisions` and `MarketEngine.executeTick`
  (src/unnamed/part_008, the MarketEngine version the spec was written from)
* the lifecycle globals, the `POST /api/control` start/stop guards and the
  self-rescheduling tick callback (src/unnamed/part_001 and the globals module
  in src/unnamed/part_007)

JavaScript numbers are modelled as `ℚ` (real arithmetic; the float rounding of
the source is not modelled), `Math.floor`/`Math.ceil` as `Int.floor`/`Int.ceil`
cast back to `ℚ`, and JS object maps as insertion-ordered association lists
`List (String × _)`.  The asynchronous settlement calls (the MCP
`purchaseTool`/`sellTool` invocations) are modelled by an oracle
`settle : String → Action → SettleResult` with three outcomes: parsed
`success:true`, parsed `success:false` (the `continue` path), and a thrown
error (the `catch` path).  The per-tick pricing noise `(Math.random()-0.5)*0.02`
is an explicit `noise` parameter.
-/

namespace LocusMarket

/-- A decision's action field.  `sanitizeDecisions` treats any action other
than `'buy'`/`'sell'` exactly like `'wait'`, so the three-valued type is
faithful. -/
inductive Action where
  | buy
  | sell
  | wait
deriving DecidableEq, Repr

/-- An `AgentDecision`: `{ action, quantity, note }`.  The raw quantity arrives
from the external policy oracle and may be fractional or negative. -/
structure Decision where
  action : Action
  quantity : ℚ
  note : String
deriving DecidableEq, Repr

/-- The `market_state` of the MarketEngine (part_008 constructor):
`{ tick, current_price, seller_inventory, seller_revenue }`
(`last_updated`, a wall-clock timestamp, is not modelled). -/
structure MarketState where
  tick : ℕ
  current_price : ℚ
  seller_inventory : ℚ
  seller_revenue : ℚ
deriving DecidableEq, Repr

/-- An entry of `agent.history.actions`.  The `wait` record pushed by
`executeTick` has no `price` field, hence the `Option`. -/
structure ActionRecord where
  tick : ℕ
  action : Action
  qty : ℚ
  price : Option ℚ
  note : String
deriving DecidableEq, Repr

/-- The `agent.history` record: bounded recent-history buffers plus `last_tick_seen`. -/
structure History where
  prices_seen : List ℚ
  actions : List ActionRecord
  last_tick_seen : ℕ
deriving DecidableEq, Repr

/-- The `agent.long_term` cumulative statistics (part_008 uses all of these;
the initial states in part_001 set the buy-side fields to 0). -/
structure LongTerm where
  total_spent : ℚ
  total_qty_bought : ℚ
  avg_purchase_price : ℚ
  max_single_tick_purchase : ℚ
  total_revenue : ℚ
  total_qty_sold : ℚ
  realized_profit : ℚ
deriving DecidableEq, Repr

/-- An `AgentState` as used by the engine.  The registry key (the agent id) is
kept outside the structure, as the key of the association list.
`max_spend_percent` is the only preference field the engine reads
(`agent.preferences.max_spend_percent || 0.40` in `sanitizeDecisions`);
it is `Option` because the part_001 initial states omit it. -/
structure AgentState where
  name : String
  money : ℚ
  inventory : ℚ
  max_spend_percent : Option ℚ
  history : History
  long_term : LongTerm
deriving DecidableEq, Repr

/-- First-match lookup in an association list (JS `Map.get`; ids are unique
in the source, so first match is exact). -/
def lookupAgent (l : List (String × AgentState)) (key : String) : Option AgentState :=
  match l with
  | [] => none
  | (k, a) :: rest => if k = key then some a else lookupAgent rest key

/-- Update the (first) entry with the given key in place, modelling mutation
of the agent object obtained from the registry. -/
def updateAgent (l : List (String × AgentState)) (key : String)
    (f : AgentState → AgentState) : List (String × AgentState) :=
  match l with
  | [] => []
  | (k, a) :: rest =>
    if k = key then (k, f a) :: rest else (k, a) :: updateAgent rest key f

/-- The effective spend fraction: `agent.preferences.max_spend_percent || 0.40`.
JS `||` falls through to the default on `undefined` and on `0`. -/
def maxSpendPercentOf (a : AgentState) : ℚ :=
  match a.max_spend_percent with
  | some p => if p = 0 then 2/5 else p
  | none => 2/5

/-- One entry of `MarketEngine.sanitizeDecisions` (part_008 lines 285–328).
Returns `none` when the agent id is unknown (the entry is dropped).
`decision.note || ''` is the identity on `String` values and is modelled
as such. -/
def sanitizeEntry (agents : List (String × AgentState)) (marketState : MarketState)
    (entry : String × Decision) : Option (String × Decision) :=
  match lookupAgent agents entry.1 with
  | none => none
  | some agent =>
    let decision := entry.2
    let qty0 : ℚ := max 0 ((⌊decision.quantity⌋ : ℤ) : ℚ)
    match decision.action with
    | Action.buy =>
      let maxSpendPercent := maxSpendPercentOf agent
      let maxSpend := agent.money * maxSpendPercent
      let maxQtyByBalance : ℚ := ((⌊maxSpend / marketState.current_price⌋ : ℤ) : ℚ)
      let maxQtyByInventory := marketState.seller_inventory
      let qty := min (min qty0 maxQtyByBalance) maxQtyByInventory
      some (entry.1,
        { action := if 0 < qty then Action.buy else Action.wait
          quantity := qty
          note := decision.note })
    | Action.sell =>
      let maxSellPercent : ℚ := 8/100
      let maxQtyBySellLimit : ℚ := ((⌈agent.inventory * maxSellPercent⌉ : ℤ) : ℚ)
      let qty := min (min qty0 agent.inventory) maxQtyBySellLimit
      some (entry.1,
        { action := if 0 < qty then Action.sell else Action.wait
          quantity := qty
          note := decision.note })
    | Action.wait =>
      some (entry.1, { action := Action.wait, quantity := 0, note := decision.note })

/-- Model of `MarketEngine.sanitizeDecisions` (part_008 lines 281–331): per-entry
sanitization over the decision map, dropping unknown ids, preserving
insertion order. -/
def sanitizeDecisions (agents : List (String × AgentState)) (marketState : MarketState)
    (decisions : List (String × Decision)) : List (String × Decision) :=
  decisions.filterMap (sanitizeEntry agents marketState)

/-- Last `n` elements of a list, the value of JS `slice(-n)` for `n > 0`. -/
def takeLast {α : Type _} (n : ℕ) (l : List α) : List α :=
  l.drop (l.length - n)

/-- The pricing bounds read from the environment in the `PricingEngine`
constructor; the defaults are `MIN_PRICE=0.0001`, `MAX_PRICE=1.0`. -/
structure PricingEngine where
  minPrice : ℚ := 1/10000
  maxPrice : ℚ := 1
deriving DecidableEq, Repr

/-- Model of `PricingEngine.calculatePriceChange`
(src/simulation/market/PricingEngine.js lines 23–50).  The per-call noise
`(Math.random() - 0.5) * 0.02` is passed in as the `noise` argument. -/
def calculatePriceChange (pe : PricingEngine) (demand supply currentPrice noise : ℚ) : ℚ :=
  let baselineSupply := if 0 < supply then supply else 0
  let imbalance := demand - baselineSupply
  let baseDelta := imbalance * (5/100)
  let priceDelta := baseDelta + noise
  let newPrice := currentPrice * (1 + priceDelta)
  max pe.minPrice (min pe.maxPrice newPrice)

/-- Model of `PricingEngine.calculateRollingAverage` (PricingEngine.js lines 57–61). -/
def calculateRollingAverage (prices : List ℚ) : ℚ :=
  if prices.length = 0 then 0 else prices.sum / prices.length

/-- A `Transaction` (part_008).  The uuid `id`, wall-clock `timestamp` and
settlement `transaction_hash` are nondeterministic identifiers and are not
modelled. -/
structure Transaction where
  tick : ℕ
  agent_id : String
  agent_name : String
  quantity : ℚ
  price : ℚ
  total_cost : ℚ
  note : String
  action : Action
deriving DecidableEq, Repr

/-- A `TickResult` (part_008 lines 256–264, minus the timestamp). -/
structure TickResult where
  tick : ℕ
  price_before : ℚ
  price_after : ℚ
  decisions : List (String × Decision)
  executed_transactions : List Transaction
  market_state : MarketState
deriving DecidableEq, Repr

/-- Outcome of one settlement call (`purchaseTool.invoke` / `sellTool.invoke`
followed by `JSON.parse`): `ok` = parsed `success:true`; `fail` = parsed
`success:false` (the `continue` path); `err` = the call or the parse threw
(the `catch` path). -/
inductive SettleResult where
  | ok
  | fail
  | err
deriving DecidableEq, Repr

/-- The per-agent bookkeeping at the end of each loop iteration of
`executeTick` (part_008 lines 220–233): push the current price, set
`last_tick_seen`, truncate both history buffers to the last 10 entries. -/
def pushAgentTickHistory (tick : ℕ) (price : ℚ) (a : AgentState) : AgentState :=
  let prices := a.history.prices_seen ++ [price]
  let prices := if 10 < prices.length then takeLast 10 prices else prices
  let actions := if 10 < a.history.actions.length then takeLast 10 a.history.actions
                 else a.history.actions
  { a with history := { prices_seen := prices, actions := actions, last_tick_seen := tick } }

/-- The mutable loop state of `executeTick`: the registry, the market state,
the round's transaction log and the demand/supply accumulators. -/
structure TickAcc where
  agents : List (String × AgentState)
  market : MarketState
  transactions : List Transaction
  totalDemand : ℚ
  totalSupply : ℚ

/-- The agent-state mutation of a successful buy (part_008 lines 88–130):
money/inventory update, long-term statistics, the action-history push, then
the end-of-iteration bookkeeping. -/
def applyBuyToAgent (tick : ℕ) (price qty cost : ℚ) (note : String)
    (a : AgentState) : AgentState :=
  let lt0 := a.long_term
  let lt := { lt0 with
    total_spent := lt0.total_spent + cost
    total_qty_bought := lt0.total_qty_bought + qty }
  let lt := { lt with
    avg_purchase_price := lt.total_spent / lt.total_qty_bought
    max_single_tick_purchase := max lt.max_single_tick_purchase qty }
  let a := { a with money := a.money - cost, inventory := a.inventory + qty, long_term := lt }
  let a := { a with history := { a.history with
    actions := a.history.actions ++
      [{ tick := tick, action := Action.buy, qty := qty, price := some price, note := note }] } }
  pushAgentTickHistory tick price a

/-- The agent-state mutation of a successful sell (part_008 lines 164–201). -/
def applySellToAgent (tick : ℕ) (price qty revenue : ℚ) (note : String)
    (a : AgentState) : AgentState :=
  let lt0 := a.long_term
  let lt := { lt0 with
    total_revenue := lt0.total_revenue + revenue
    total_qty_sold := lt0.total_qty_sold + qty }
  let lt := { lt with realized_profit := lt.total_revenue - lt.total_spent }
  let a := { a with money := a.money + revenue, inventory := a.inventory - qty, long_term := lt }
  let a := { a with history := { a.history with
    actions := a.history.actions ++
      [{ tick := tick, action := Action.sell, qty := qty, price := some price, note := note }] } }
  pushAgentTickHistory tick price a

/-- One iteration of the decision loop of `MarketEngine.executeTick`
(part_008 lines 56–234).  `instances` is the key set of `agentInstances`;
`settle` gives the outcome of the (at most one) settlement call of this
iteration.  Branch map:
* buy/sell with a missing agent or instance: `continue` (lines 60 and 139);
* buy guard `seller_inventory >= qty && agent.money >= cost` failed, or sell
  guard `agent.inventory >= qty` failed: fall through to the bookkeeping;
* settlement parsed `success:false`: `continue` (lines 83 and 159), which
  skips the end-of-iteration bookkeeping as well;
* settlement threw: `catch` logs and falls through to the bookkeeping;
* settlement ok: mutate state, record the transaction, accumulate demand or
  supply, push the action record, then the bookkeeping;
* anything else (the `wait` arm): push a wait record if the agent exists,
  then the bookkeeping. -/
def applyDecision (instances : List String) (settle : String → Action → SettleResult)
    (tick : ℕ) (acc : TickAcc) (entry : String × Decision) : TickAcc :=
  let agentId := entry.1
  let decision := entry.2
  if decision.action = Action.buy ∧ 0 < decision.quantity then
    match lookupAgent acc.agents agentId, instances.contains agentId with
    | some agent, true =>
      let qty := decision.quantity
      let cost := qty * acc.market.current_price
      if qty ≤ acc.market.seller_inventory ∧ cost ≤ agent.money then
        match settle agentId Action.buy with
        | SettleResult.fail => acc
        | SettleResult.err =>
          { acc with agents := (updateAgent acc.agents agentId
              (pushAgentTickHistory tick acc.market.current_price)) }
        | SettleResult.ok =>
          let price := acc.market.current_price
          let txn : Transaction :=
            { tick := tick, agent_id := agentId, agent_name := agent.name,
              quantity := qty, price := price, total_cost := cost,
              note := decision.note, action := Action.buy }
          { agents := updateAgent acc.agents agentId (applyBuyToAgent tick price qty cost decision.note)
            market := { acc.market with
              seller_inventory := acc.market.seller_inventory - qty
              seller_revenue := acc.market.seller_revenue + cost }
            transactions := acc.transactions ++ [txn]
            totalDemand := acc.totalDemand + qty
            totalSupply := acc.totalSupply }
      else
        { acc with agents := (updateAgent acc.agents agentId
            (pushAgentTickHistory tick acc.market.current_price)) }
    | _, _ => acc
  else if decision.action = Action.sell ∧ 0 < decision.quantity then
    match lookupAgent acc.agents agentId, instances.contains agentId with
    | some agent, true =>
      let qty := decision.quantity
      let revenue := qty * acc.market.current_price
      if qty ≤ agent.inventory then
        match settle agentId Action.sell with
        | SettleResult.fail => acc
        | SettleResult.err =>
          { acc with agents := (updateAgent acc.agents agentId
              (pushAgentTickHistory tick acc.market.current_price)) }
        | SettleResult.ok =>
          let price := acc.market.current_price
          let txn : Transaction :=
            { tick := tick, agent_id := agentId, agent_name := agent.name,
              quantity := qty, price := price, total_cost := revenue,
              note := decision.note, action := Action.sell }
          { agents := updateAgent acc.agents agentId (applySellToAgent tick price qty revenue decision.note)
            market := { acc.market with
              seller_inventory := acc.market.seller_inventory + qty
              seller_revenue := acc.market.seller_revenue - revenue }
            transactions := acc.transactions ++ [txn]
            totalDemand := acc.totalDemand
            totalSupply := acc.totalSupply + qty }
      else
        { acc with agents := (updateAgent acc.agents agentId
            (pushAgentTickHistory tick acc.market.current_price)) }
    | _, _ => acc
  else
    match lookupAgent acc.agents agentId with
    | some _ =>
      { acc with agents := updateAgent acc.agents agentId (fun a =>
          let a := { a with history := { a.history with
            actions := a.history.actions ++
              [{ tick := tick, action := Action.wait, qty := 0, price := none,
                 note := decision.note }] } }
          pushAgentTickHistory tick acc.market.current_price a) }
    | none => acc

/-- The `MarketEngine` instance state (part_008 constructor): market state,
agent registry (`new Map(agentStates…)`), the key set of `agentInstances`,
the pricing engine and the bounded tick history. -/
structure MarketEngine where
  marketState : MarketState
  agents : List (String × AgentState)
  agentInstances : List String
  pricingEngine : PricingEngine
  tickHistory : List TickResult

/-- Model of `MarketEngine.executeTick` (part_008 lines 42–274): bump the tick
counter, sanitize, run the decision loop, reprice from
`netDemand = totalDemand - totalSupply` with a zero baseline (line 243),
build the `TickResult` and append it to the 100-bounded history. -/
def executeTick (e : MarketEngine) (settle : String → Action → SettleResult)
    (noise : ℚ) (decisions : List (String × Decision)) : MarketEngine × TickResult :=
  let tick := e.marketState.tick + 1
  let ms := { e.marketState with tick := tick }
  let priceBefore := ms.current_price
  let validDecisions := sanitizeDecisions e.agents ms decisions
  let acc0 : TickAcc :=
    { agents := e.agents, market := ms, transactions := [],
      totalDemand := 0, totalSupply := 0 }
  let acc := validDecisions.foldl (applyDecision e.agentInstances settle tick) acc0
  let netDemand := acc.totalDemand - acc.totalSupply
  let baselineSupply : ℚ := 0
  let priceAfter := calculatePriceChange e.pricingEngine netDemand baselineSupply priceBefore noise
  let ms1 := { acc.market with current_price := priceAfter }
  let tickResult : TickResult :=
    { tick := tick, price_before := priceBefore, price_after := priceAfter,
      decisions := validDecisions, executed_transactions := acc.transactions,
      market_state := ms1 }
  let hist := e.tickHistory ++ [tickResult]
  let hist := if 100 < hist.length then takeLast 100 hist else hist
  ({ e with marketState := ms1, agents := acc.agents, tickHistory := hist }, tickResult)

/-- The external inputs consumed by one executed tick: the settlement oracle,
the pricing noise and the (raw) decision batch gathered from the agents. -/
structure TickInput where
  settle : String → Action → SettleResult
  noise : ℚ
  decisions : List (String × Decision)

/-- A sequence of executed ticks of one `MarketEngine` instance. -/
def runTicks (e : MarketEngine) (inputs : List TickInput) : MarketEngine :=
  inputs.foldl (fun e i => (executeTick e i.settle i.noise i.decisions).1) e

/-! ## Lifecycle globals and the control surface

The module-level globals of `lib/globals.js` (part_007) drive the
start/stop state machine of `POST /api/control` (part_001).  Engine objects
are identified by a generation id `ℕ`; `marketEngine` holds the id of the
current engine or `none`, `simulationInterval` records whether a timeout
handle is pending, and `agentsCount` is `agents.length`. -/

structure Globals where
  marketEngine : Option ℕ
  agentsCount : ℕ
  simulationInterval : Bool
  running : Bool
  starting : Bool
deriving DecidableEq, Repr

/-- The start-conflict guard of `POST /api/control` (part_001 line 29):
`isStarting() || isSimulationRunning() || marketEngine || agents.length > 0
|| simulationInterval`. -/
def startConflictCond (g : Globals) : Bool :=
  g.starting || g.running || g.marketEngine.isSome ||
    decide (0 < g.agentsCount) || g.simulationInterval

/-- The `setStarting(true)` call (part_001 line 43), performed synchronously right
after the guard, before any asynchronous work. -/
def acquireStartLock (g : Globals) : Globals :=
  { g with starting := true }

/-- The synchronous prefix of the start branch of `POST /api/control`
(part_001 lines 27–44): evaluate the conflict guard; on conflict return a
409 without touching the globals, otherwise acquire the starting lock.
The boolean result is `true` iff the start request was accepted. -/
def controlStartSync (g : Globals) : Bool × Globals :=
  if startConflictCond g then (false, g) else (true, acquireStartLock g)

/-- The globals after a successful start completes (part_001 lines 155–156,
207, 324–325, 328): engine and the three agents installed, running flag set,
first tick scheduled, starting lock released. -/
def finishStart (g : Globals) (engineId : ℕ) : Globals :=
  { g with marketEngine := some engineId, agentsCount := 3,
           simulationInterval := true, running := true, starting := false }

/-- The stop branch of `POST /api/control` (part_001 lines 359–373):
`clearSimulationInterval()` (which sets `_isSimulationRunning = false` and
drops the timeout handle, part_007 lines 67–77), `setMarketEngine(null)`,
`setAgents([])`. -/
def stopControl (g : Globals) : Globals :=
  { g with running := false, simulationInterval := false,
           marketEngine := none, agentsCount := 0 }

/-- The entry guard of the scheduled tick callback (part_001 lines 212–224):
proceed only when `isSimulationRunning()` and the global `marketEngine` is
non-null and identical to the `engine` captured when the callback was
created (`!marketEngine || marketEngine !== engine` exits). -/
def tickEntryGuard (g : Globals) (engine : ℕ) : Bool :=
  g.running && decide (g.marketEngine = some engine)

/-- The final guard immediately before `executeTick` (part_001 line 253):
`!isSimulationRunning() || !marketEngine` exits — the callback proceeds
when the running flag is set and the global engine is merely non-null. -/
def tickFinalGuard (g : Globals) : Bool :=
  g.running && g.marketEngine.isSome

/-- Whether one run of the scheduled tick callback reaches the
`marketEngine.executeTick(decisions)` call (part_001 lines 210–259).
`g1` is the globals snapshot at callback entry, `engine` the generation id
captured by the closure, `mid` the snapshots observed by the
`if (!isSimulationRunning())` re-check before each agent decision
(lines 241–250), and `g2` the snapshot at the final check (line 253). -/
def tickCallbackInvokesExecuteTick (g1 : Globals) (engine : ℕ)
    (mid : List Globals) (g2 : Globals) : Bool :=
  tickEntryGuard g1 engine && decide (0 < g1.agentsCount) &&
    mid.all (fun g => g.running) && tickFinalGuard g2

/-- The auto-stop condition evaluated after each `executeTick`
(part_001 lines 277–279): `seller_inventory <= 0`, or
`maxTicks > 0 && result.tick >= maxTicks` with `maxTicks = MAX_TICKS || 0`
(`0` meaning unlimited). -/
def shouldStopAfterTick (maxTicks : ℕ) (r : TickResult) : Bool :=
  decide (r.market_state.seller_inventory ≤ 0) ||
    (decide (0 < maxTicks) && decide (maxTicks ≤ r.tick))

/-- The `reason` field of the `simulation_ended` broadcast
(part_001 line 303): `seller_inventory <= 0 ? 'inventory_depleted'
: 'max_ticks_reached'`. -/
def simulationEndedReason (r : TickResult) : String :=
  if r.market_state.seller_inventory ≤ 0 then "inventory_depleted" else "max_ticks_reached"

/-! ## Wellformedness predicates (the typing of §3 of the spec) and
spec-side comparison formulas -/

/-- A rational that is an integer value, the model of a JS number the spec's
data model types as `int`. -/
def IsIntQ (x : ℚ) : Prop := ((⌊x⌋ : ℤ) : ℚ) = x

/-- Wellformedness of a participant per the spec's data model:
`balance ≥ 0`, `holdings : int ≥ 0`, and any configured spend fraction is
nonnegative. -/
def AgentWF (a : AgentState) : Prop :=
  0 ≤ a.money ∧ 0 ≤ a.inventory ∧ IsIntQ a.inventory ∧
    ∀ p, a.max_spend_percent = some p → 0 ≤ p

/-- Wellformedness of the market state per the spec's data model:
`price > 0`, `inventory : int ≥ 0`. -/
def MarketWF (ms : MarketState) : Prop :=
  0 < ms.current_price ∧ 0 ≤ ms.seller_inventory ∧ IsIntQ ms.seller_inventory

/-- Every registered participant has nonnegative money and holdings. -/
def agentsNonneg (l : List (String × AgentState)) : Prop :=
  ∀ p ∈ l, 0 ≤ p.2.money ∧ 0 ≤ p.2.inventory

/-- The numeric invariant of the engine: seller inventory and current price
nonnegative, and every registered participant's balance and holdings
nonnegative. -/
def EngineInv (e : MarketEngine) : Prop :=
  0 ≤ e.marketState.seller_inventory ∧ 0 ≤ e.marketState.current_price ∧
    agentsNonneg e.agents

/-- The same invariant on the loop state of one tick. -/
def AccInv (acc : TickAcc) : Prop :=
  0 ≤ acc.market.seller_inventory ∧ 0 ≤ acc.market.current_price ∧
    agentsNonneg acc.agents

/-- The price formula as the spec states it: `currentPrice × (1 + rawDelta +
noise)` clamped to `[min, max]`, with `rawDelta = (netFlow − baseline) ×
sensitivity` and a nonpositive baseline treated as 0. -/
def specClampedPrice (pe : PricingEngine) (netFlow baseline currentPrice noise : ℚ) : ℚ :=
  let rawDelta := (netFlow - (if 0 < baseline then baseline else 0)) * (5/100)
  max pe.minPrice (min pe.maxPrice (currentPrice * (1 + (rawDelta + noise))))

/-- The sell cap as the spec states it: the floored, non-negative requested
quantity capped by current holdings and by `ceil(holdings × maxSellFraction)`
(the source's configured fraction is the constant `0.08`).  This is also the
quantity the sell branch of `sanitizeEntry` computes. -/
def specSellCap (agent : AgentState) (d : Decision) : ℚ :=
  min (min (max 0 ((⌊d.quantity⌋ : ℤ) : ℚ)) agent.inventory)
    ((⌈agent.inventory * (8/100)⌉ : ℤ) : ℚ)

/-- The quantity the buy branch of `sanitizeEntry` computes: the floored,
non-negative requested quantity capped by
`floor(balance × maxSpendFraction / price)` and by seller inventory. -/
def buyCap (agent : AgentState) (ms : MarketState) (d : Decision) : ℚ :=
  min (min (max 0 ((⌊d.quantity⌋ : ℤ) : ℚ))
      ((⌊agent.money * maxSpendPercentOf agent / ms.current_price⌋ : ℤ) : ℚ))
    ms.seller_inventory

/-! ## Concrete data for scenario claims and witnesses -/

/-- A fresh history, as built by the start route (part_001). -/
def emptyHistory : History :=
  { prices_seen := [], actions := [], last_tick_seen := 0 }

/-- Fresh long-term statistics, as built by the start route (part_001). -/
def zeroLongTerm : LongTerm :=
  { total_spent := 0, total_qty_bought := 0, avg_purchase_price := 0,
    max_single_tick_purchase := 0, total_revenue := 0, total_qty_sold := 0,
    realized_profit := 0 }

/-- The participant of the spec's buy-clamp scenario: balance 10,
`maxSpendFraction = 0.3`. -/
def c7Agent : AgentState :=
  { name := "Frugal Fred", money := 10, inventory := 0,
    max_spend_percent := some (3/10), history := emptyHistory,
    long_term := zeroLongTerm }

/-- The market of the spec's buy-clamp scenario: price 0.02, inventory 1000. -/
def c7Market : MarketState :=
  { tick := 0, current_price := 1/50, seller_inventory := 1000,
    seller_revenue := 0 }

/-- A participant holding 50 units, used to instantiate the sell-cap claim. -/
def c6Agent : AgentState :=
  { name := "Seller Sam", money := 5, inventory := 50,
    max_spend_percent := some (3/10), history := emptyHistory,
    long_term := zeroLongTerm }

/-- A market used to instantiate the sell-cap claim (the sell branch does not
read it). -/
def c6Market : MarketState :=
  { tick := 3, current_price := 1/50, seller_inventory := 200,
    seller_revenue := 0 }

/-- A tick result that hits the round limit with inventory remaining:
`maxTicks = 5`, tick 5, seller inventory 5. -/
def c9Result : TickResult :=
  { tick := 5, price_before := 1/50, price_after := 1/50, decisions := [],
    executed_transactions := [],
    market_state := { tick := 5, current_price := 1/50, seller_inventory := 5,
                      seller_revenue := 0 } }

/-- A tick result whose seller inventory has reached exactly 0. -/
def c9DepletedResult : TickResult :=
  { tick := 2, price_before := 1/50, price_after := 1/50, decisions := [],
    executed_transactions := [],
    market_state := { tick := 2, current_price := 1/50, seller_inventory := 0,
                      seller_revenue := 0 } }

/-- A loop state in which a buy of 5 units fails the inventory guard
(only 3 units remain). -/
def c10Acc : TickAcc :=
  { agents := [("buyer_1", c7Agent)],
    market := { tick := 4, current_price := 1/50, seller_inventory := 3,
                seller_revenue := 0 },
    transactions := [], totalDemand := 0, totalSupply := 0 }

/-- A loop state in which a buy of 5 units passes both guards, so only the
settlement outcome decides whether it is applied. -/
def c5Acc : TickAcc :=
  { agents := [("buyer_1", c7Agent)],
    market := { tick := 4, current_price := 1/50, seller_inventory := 1000,
                seller_revenue := 0 },
    transactions := [], totalDemand := 0, totalSupply := 0 }

/-- A small wellformed engine used to instantiate the invariant claim. -/
def c1Engine : MarketEngine :=
  { marketState := { tick := 0, current_price := 1/50, seller_inventory := 1000,
                     seller_revenue := 0 },
    agents := [("buyer_1", c7Agent)],
    agentInstances := ["buyer_1"],
    pricingEngine := { minPrice := 1/10000, maxPrice := 1 },
    tickHistory := [] }

/-- The idle globals: nothing running, nothing installed. -/
def idleGlobals : Globals :=
  { marketEngine := none, agentsCount := 0, simulationInterval := false,
    running := false, starting := false }

/-- Globals of a running simulation whose active engine has generation id
`n` and three agents installed. -/
def runningGlobals (n : ℕ) : Globals :=
  { marketEngine := some n, agentsCount := 3, simulationInterval := true,
    running := true, starting := false }

/-! ## Helper lemmas -/

theorem lookupAgent_mem {l : List (String × AgentState)} {k : String} {a : AgentState}
    (h : lookupAgent l k = some a) : (k, a) ∈ l := by
  induction l with
  | nil => simp [lookupAgent] at h
  | cons p rest ih =>
    obtain ⟨k', a'⟩ := p
    rw [lookupAgent] at h
    by_cases hk : k' = k
    · rw [if_pos hk] at h
      obtain rfl := Option.some.inj h
      subst hk
      exact List.mem_cons_self _ _
    · rw [if_neg hk] at h
      exact List.mem_cons_of_mem _ (ih h)

theorem lookupAgent_updateAgent_self (l : List (String × AgentState)) (k : String)
    (f : AgentState → AgentState) :
    lookupAgent (updateAgent l k f) k = (lookupAgent l k).map f := by
  induction l with
  | nil => simp [lookupAgent, updateAgent]
  | cons p rest ih =>
    obtain ⟨k', a'⟩ := p
    by_cases hk : k' = k
    · simp [lookupAgent, updateAgent, hk]
    · simp [lookupAgent, updateAgent, hk, ih]

theorem isIntQ_intCast (n : ℤ) : IsIntQ ((n : ℤ) : ℚ) := by
  simp [IsIntQ]

theorem isIntQ_zero : IsIntQ (0 : ℚ) := by
  simp [IsIntQ]

theorem IsIntQ.minQ {a b : ℚ} (ha : IsIntQ a) (hb : IsIntQ b) : IsIntQ (min a b) := by
  rcases min_choice a b with h | h <;> rw [h] <;> assumption

theorem IsIntQ.maxQ {a b : ℚ} (ha : IsIntQ a) (hb : IsIntQ b) : IsIntQ (max a b) := by
  rcases max_choice a b with h | h <;> rw [h] <;> assumption

theorem maxSpendPercentOf_nonneg {a : AgentState}
    (h : ∀ p, a.max_spend_percent = some p → 0 ≤ p) :
    0 ≤ maxSpendPercentOf a := by
  unfold maxSpendPercentOf
  cases hp : a.max_spend_percent with
  | none => norm_num
  | some p =>
    show 0 ≤ if p = 0 then (2:ℚ)/5 else p
    by_cases h0 : p = 0
    · rw [if_pos h0]; norm_num
    · rw [if_neg h0]; exact h p hp

/-! ## Claim C4 — pricing is clamp of currentPrice × (1 + rawDelta + noise) -/

/-- Claim C4: for every finite input `netFlow`, `baseline`, `currentPrice`
(and any noise draw), `calculatePriceChange` returns a price within
`[minPrice, maxPrice]`, and that price is exactly
`currentPrice × (1 + rawDelta + noise)` clamped to the configured bounds
(the spec-side formula `specClampedPrice`).  The only hypothesis is that the
configured bounds form an interval, `minPrice ≤ maxPrice`. -/
theorem claim_C4_price_bounds (pe : PricingEngine) (netFlow baseline currentPrice noise : ℚ)
    (hb : pe.minPrice ≤ pe.maxPrice) :
    pe.minPrice ≤ calculatePriceChange pe netFlow baseline currentPrice noise ∧
    calculatePriceChange pe netFlow baseline currentPrice noise ≤ pe.maxPrice ∧
    calculatePriceChange pe netFlow baseline currentPrice noise
      = specClampedPrice pe netFlow baseline currentPrice noise := by
  refine ⟨le_max_left _ _, max_le hb (min_le_left _ _), rfl⟩

/-- Witness for C4 at the default bounds, net flow 4, baseline 0, price 0.02,
noise 0.005. -/
theorem claim_C4_witness :
    ((1/10000 : ℚ) ≤ 1) ∧
    ((1/10000 : ℚ) ≤ calculatePriceChange { minPrice := 1/10000, maxPrice := 1 } 4 0 (1/50) (1/200) ∧
      calculatePriceChange { minPrice := 1/10000, maxPrice := 1 } 4 0 (1/50) (1/200) ≤ 1 ∧
      calculatePriceChange { minPrice := 1/10000, maxPrice := 1 } 4 0 (1/50) (1/200)
        = specClampedPrice { minPrice := 1/10000, maxPrice := 1 } 4 0 (1/50) (1/200)) :=
  ⟨by norm_num,
   claim_C4_price_bounds { minPrice := 1/10000, maxPrice := 1 } 4 0 (1/50) (1/200) (by norm_num)⟩

/-! ## Claim C7 — the concrete buy-clamp scenario -/

/-- Claim C7: with market price 0.02, seller inventory 1000, and one
participant with balance 10 and `maxSpendFraction = 0.3` requesting
`{buy, quantity: 1000}`, the sanitizer outputs a buy of
`floor(10 × 0.3 / 0.02) = 150 = min 150 1000` units. -/
theorem claim_C7_buy_clamp_scenario :
    sanitizeDecisions [("buyer_1", c7Agent)] c7Market
        [("buyer_1", { action := Action.buy, quantity := 1000, note := "" })]
      = [("buyer_1", { action := Action.buy, quantity := 150, note := "" })] ∧
    ((⌊(10 * (3/10) : ℚ) / (1/50)⌋ : ℤ) : ℚ) = 150 ∧
    min (150 : ℚ) 1000 = 150 := by
  refine ⟨?_, by norm_num, by norm_num⟩
  simp only [sanitizeDecisions, List.filterMap_cons, List.filterMap_nil, sanitizeEntry,
    lookupAgent, c7Agent, c7Market, maxSpendPercentOf]
  norm_num

/-! ## Claim C3 — start conflicts -/

/-- Claim C3: `start()` is rejected with a Conflict (409) exactly when the
starting lock is set, or the running flag is true, or the active engine
reference is non-null, or the participant list is non-empty, or a schedule
handle is still pending; and from a clean state two immediate `start()`
calls yield exactly one acceptance and one conflict, because the accepted
call sets the starting lock synchronously before any asynchronous work. -/
theorem claim_C3_start_conflict (g : Globals) :
    ((controlStartSync g).1 = false ↔
      (g.starting = true ∨ g.running = true ∨ g.marketEngine.isSome = true ∨
        0 < g.agentsCount ∨ g.simulationInterval = true))
    ∧ (startConflictCond g = false →
        (controlStartSync g).1 = true ∧
          (controlStartSync (controlStartSync g).2).1 = false) := by
  have key : ∀ g' : Globals, (controlStartSync g').1 = false ↔ startConflictCond g' = true := by
    intro g'
    unfold controlStartSync
    cases h : startConflictCond g' <;> simp [h]
  constructor
  · rw [key]
    simp only [startConflictCond, Bool.or_eq_true, decide_eq_true_iff]
    tauto
  · intro h
    have h1 : controlStartSync g = (true, acquireStartLock g) := by
      unfold controlStartSync
      rw [if_neg (by rw [h]; exact Bool.false_ne_true)]
    refine ⟨by rw [h1], ?_⟩
    rw [h1, key]
    simp [startConflictCond, acquireStartLock]

/-- Witness for C3 from the clean idle state. -/
theorem claim_C3_witness :
    startConflictCond idleGlobals = false ∧
    ((controlStartSync idleGlobals).1 = true ∧
      (controlStartSync (controlStartSync idleGlobals).2).1 = false) :=
  ⟨by decide, (claim_C3_start_conflict idleGlobals).2 (by decide)⟩

/-! ## Claim C2 — staleness checks of the scheduled tick callback -/

/-- Counterexample to claim C2.  A callback was scheduled against engine 1
and passes its entry checks while engine 1 is active (`g1`).  During the
asynchronous decision-gathering phase a `stop()` followed by a new `start()`
installs engine 2.  The final check before `executeTick` (part_001 line 253)
tests only `running` and non-nullness, so the stale callback still reaches
`executeTick`, although the engine it was scheduled against is no longer the
active one (the identity re-check the claim asserts would have failed). -/
theorem claim_C2_counterexample :
    tickCallbackInvokesExecuteTick (runningGlobals 1) 1 []
        (finishStart (acquireStartLock (stopControl (runningGlobals 1))) 2) = true
      ∧ (finishStart (acquireStartLock (stopControl (runningGlobals 1))) 2).marketEngine
          ≠ some 1
      ∧ tickEntryGuard (finishStart (acquireStartLock (stopControl (runningGlobals 1))) 2) 1
          = false := by
  decide

/-- Claim C2 as amended: the callback's entry check (before any work)
verifies `running` AND engine identity, and the per-agent re-checks verify
`running`; but the final check immediately before `executeTick` verifies
only `running` AND that the global engine is non-null — not identity — so
the callback reaches `executeTick` exactly under the conditions on the right
hand side. -/
theorem claim_C2_amended_callback_guards (g1 : Globals) (engine : ℕ)
    (mid : List Globals) (g2 : Globals) :
    tickCallbackInvokesExecuteTick g1 engine mid g2 = true ↔
      (g1.running = true ∧ g1.marketEngine = some engine ∧ 0 < g1.agentsCount ∧
        (∀ g ∈ mid, g.running = true) ∧ g2.running = true ∧
          g2.marketEngine.isSome = true) := by
  simp [tickCallbackInvokesExecuteTick, tickEntryGuard, tickFinalGuard,
    Bool.and_eq_true, List.all_eq_true, decide_eq_true_iff, and_assoc]

/-- Witness for the amended C2, where all the guards hold. -/
theorem claim_C2_amended_witness :
    tickCallbackInvokesExecuteTick (runningGlobals 7) 7 [runningGlobals 7]
        (runningGlobals 7) = true :=
  (claim_C2_amended_callback_guards _ 7 _ _).mpr (by decide)

/-! ## Claim C9 — auto-stop condition and terminal event reason -/

/-- Counterexample to claim C9: when the round limit is hit (`maxTicks = 5`,
tick 5, inventory 5 remaining) the lifecycle does auto-stop, but the
terminal `simulation_ended` event carries `reason = "max_ticks_reached"`,
not the `"round_limit_reached"` value the claim states. -/
theorem claim_C9_counterexample :
    shouldStopAfterTick 5 c9Result = true ∧
    simulationEndedReason c9Result = "max_ticks_reached" ∧
    simulationEndedReason c9Result ≠ "round_limit_reached" := by
  refine ⟨by decide, by decide, by decide⟩

/-- Claim C9 as amended: after every `executeTick` the lifecycle auto-stops
exactly when seller inventory has reached 0 or a configured positive maximum
round count has been reached (0 meaning unlimited), and the terminal event's
reason is `"inventory_depleted"` when inventory is depleted and
`"max_ticks_reached"` (not `"round_limit_reached"`) when the round limit was
hit with inventory remaining. -/
theorem claim_C9_amended_autostop (maxTicks : ℕ) (r : TickResult)
    (hinv : 0 ≤ r.market_state.seller_inventory) :
    (shouldStopAfterTick maxTicks r = true ↔
      (r.market_state.seller_inventory = 0 ∨ (0 < maxTicks ∧ maxTicks ≤ r.tick)))
    ∧ (r.market_state.seller_inventory = 0 →
        simulationEndedReason r = "inventory_depleted")
    ∧ (0 < r.market_state.seller_inventory →
        simulationEndedReason r = "max_ticks_reached") := by
  refine ⟨?_, ?_, ?_⟩
  · simp only [shouldStopAfterTick, Bool.or_eq_true, Bool.and_eq_true, decide_eq_true_iff]
    constructor
    · rintro (h | ⟨h1, h2⟩)
      · exact Or.inl (le_antisymm h hinv)
      · exact Or.inr ⟨h1, h2⟩
    · rintro (h | ⟨h1, h2⟩)
      · exact Or.inl (le_of_eq h)
      · exact Or.inr ⟨h1, h2⟩
  · intro h
    unfold simulationEndedReason
    rw [if_pos (le_of_eq h)]
  · intro h
    unfold simulationEndedReason
    rw [if_neg (not_le.mpr h)]

/-- Witness for the amended C9 at a depleted-inventory tick result. -/
theorem claim_C9_witness :
    ((0 : ℚ) ≤ c9DepletedResult.market_state.seller_inventory) ∧
    shouldStopAfterTick 0 c9DepletedResult = true ∧
    simulationEndedReason c9DepletedResult = "inventory_depleted" :=
  ⟨by norm_num [c9DepletedResult],
   (claim_C9_amended_autostop 0 c9DepletedResult (by norm_num [c9DepletedResult])).1.mpr
     (Or.inl (by norm_num [c9DepletedResult])),
   (claim_C9_amended_autostop 0 c9DepletedResult (by norm_num [c9DepletedResult])).2.1
     (by norm_num [c9DepletedResult])⟩

/-! ## Claim C6 — the sell-side caps of the sanitizer -/

/-- Claim C6: for every sell decision whose participant exists, sanitization
caps the floored, non-negative requested quantity by the participant's
current holdings and by `ceil(holdings × maxSellFraction)` (the spec-side
formula `specSellCap`, with the source's configured fraction 0.08), and a
capped quantity of 0 is downgraded to a wait with quantity 0. -/
theorem claim_C6_sell_cap (agents : List (String × AgentState)) (ms : MarketState)
    (agentId : String) (d : Decision) (agent : AgentState)
    (hl : lookupAgent agents agentId = some agent) (ha : d.action = Action.sell) :
    sanitizeEntry agents ms (agentId, d) = some (agentId,
      { action := if 0 < specSellCap agent d then Action.sell else Action.wait,
        quantity := specSellCap agent d, note := d.note })
    ∧ specSellCap agent d ≤ agent.inventory
    ∧ specSellCap agent d ≤ ((⌈agent.inventory * (8/100)⌉ : ℤ) : ℚ)
    ∧ (specSellCap agent d = 0 →
        sanitizeEntry agents ms (agentId, d) = some (agentId,
          { action := Action.wait, quantity := 0, note := d.note })) := by
  have h1 : sanitizeEntry agents ms (agentId, d) = some (agentId,
      { action := if 0 < specSellCap agent d then Action.sell else Action.wait,
        quantity := specSellCap agent d, note := d.note }) := by
    simp only [sanitizeEntry, hl, ha, specSellCap]
  refine ⟨h1, le_trans (min_le_left _ _) (min_le_right _ _), min_le_right _ _, ?_⟩
  intro h0
  rw [h1, h0]
  norm_num

/-- Witness for C6: holdings 50, request 7.3 units; the floored request 7 is
capped by `ceil(50 × 0.08) = 4` and the result is a sell of 4. -/
theorem claim_C6_witness :
    sanitizeEntry [("s", c6Agent)] c6Market
        ("s", { action := Action.sell, quantity := 73/10, note := "x" })
      = some ("s", { action := Action.sell, quantity := 4, note := "x" }) := by
  have h := (claim_C6_sell_cap [("s", c6Agent)] c6Market "s"
      { action := Action.sell, quantity := 73/10, note := "x" } c6Agent
      (by simp [lookupAgent]) rfl).1
  rw [h]
  norm_num [specSellCap, c6Agent]

/-! ## Claim C8 — idempotence of the sanitizer -/

theorem sanitizeEntry_buy (agents : List (String × AgentState)) (ms : MarketState)
    (agentId : String) (d : Decision) (agent : AgentState)
    (hl : lookupAgent agents agentId = some agent) (ha : d.action = Action.buy) :
    sanitizeEntry agents ms (agentId, d) = some (agentId,
      { action := if 0 < buyCap agent ms d then Action.buy else Action.wait,
        quantity := buyCap agent ms d, note := d.note }) := by
  simp only [sanitizeEntry, hl, ha, buyCap]

theorem sanitizeEntry_sell (agents : List (String × AgentState)) (ms : MarketState)
    (agentId : String) (d : Decision) (agent : AgentState)
    (hl : lookupAgent agents agentId = some agent) (ha : d.action = Action.sell) :
    sanitizeEntry agents ms (agentId, d) = some (agentId,
      { action := if 0 < specSellCap agent d then Action.sell else Action.wait,
        quantity := specSellCap agent d, note := d.note }) := by
  simp only [sanitizeEntry, hl, ha, specSellCap]

theorem sanitizeEntry_wait (agents : List (String × AgentState)) (ms : MarketState)
    (agentId : String) (d : Decision) (agent : AgentState)
    (hl : lookupAgent agents agentId = some agent) (ha : d.action = Action.wait) :
    sanitizeEntry agents ms (agentId, d)
      = some (agentId, { action := Action.wait, quantity := 0, note := d.note }) := by
  simp only [sanitizeEntry, hl, ha]

theorem buyCap_int {agent : AgentState} {ms : MarketState} (d : Decision)
    (hsi : IsIntQ ms.seller_inventory) : IsIntQ (buyCap agent ms d) := by
  unfold buyCap
  exact IsIntQ.minQ
    (IsIntQ.minQ (IsIntQ.maxQ isIntQ_zero (isIntQ_intCast _)) (isIntQ_intCast _)) hsi

theorem buyCap_nonneg {agent : AgentState} {ms : MarketState} (d : Decision)
    (hmoney : 0 ≤ agent.money)
    (hpref : ∀ p, agent.max_spend_percent = some p → 0 ≤ p)
    (hprice : 0 < ms.current_price) (hsi : 0 ≤ ms.seller_inventory) :
    0 ≤ buyCap agent ms d := by
  unfold buyCap
  refine le_min (le_min (le_max_left _ _) ?_) hsi
  have h : (0 : ℚ) ≤ agent.money * maxSpendPercentOf agent / ms.current_price :=
    div_nonneg (mul_nonneg hmoney (maxSpendPercentOf_nonneg hpref)) hprice.le
  exact_mod_cast Int.floor_nonneg.mpr h

theorem specSellCap_int {agent : AgentState} (d : Decision)
    (hinv : IsIntQ agent.inventory) : IsIntQ (specSellCap agent d) := by
  unfold specSellCap
  exact IsIntQ.minQ
    (IsIntQ.minQ (IsIntQ.maxQ isIntQ_zero (isIntQ_intCast _)) hinv) (isIntQ_intCast _)

theorem specSellCap_nonneg {agent : AgentState} (d : Decision)
    (hinv : 0 ≤ agent.inventory) : 0 ≤ specSellCap agent d := by
  unfold specSellCap
  refine le_min (le_min (le_max_left _ _) hinv) ?_
  have h : (0 : ℚ) ≤ agent.inventory * (8/100) := mul_nonneg hinv (by norm_num)
  exact_mod_cast Int.ceil_nonneg h

/-- Applying `sanitizeEntry` to one of its own outputs reproduces that
output, for a wellformed market state and registry. -/
theorem sanitizeEntry_fixed (agents : List (String × AgentState)) (ms : MarketState)
    (hms : MarketWF ms) (hag : ∀ p ∈ agents, AgentWF p.2) :
    ∀ x y, sanitizeEntry agents ms x = some y → sanitizeEntry agents ms y = some y := by
  obtain ⟨hprice, hsi, hsiint⟩ := hms
  rintro ⟨aid, d⟩ y h
  cases hl : lookupAgent agents aid with
  | none => simp [sanitizeEntry, hl] at h
  | some agent =>
    obtain ⟨hmoney, hinv, hinvint, hpref⟩ := hag (aid, agent) (lookupAgent_mem hl)
    obtain ⟨act, q, note⟩ := d
    cases act with
    | buy =>
      rw [sanitizeEntry_buy agents ms aid _ agent hl rfl] at h
      obtain rfl := (Option.some.inj h).symm
      have hint : IsIntQ (buyCap agent ms ⟨Action.buy, q, note⟩) :=
        buyCap_int _ hsiint
      have h0 : 0 ≤ buyCap agent ms ⟨Action.buy, q, note⟩ :=
        buyCap_nonneg _ hmoney hpref hprice hsi
      by_cases hq : 0 < buyCap agent ms ⟨Action.buy, q, note⟩
      · rw [if_pos hq]
        rw [sanitizeEntry_buy agents ms aid _ agent hl rfl]
        have hfix : buyCap agent ms
            ⟨Action.buy, buyCap agent ms ⟨Action.buy, q, note⟩, note⟩
              = buyCap agent ms ⟨Action.buy, q, note⟩ := by
          have hle1 : buyCap agent ms ⟨Action.buy, q, note⟩
              ≤ ((⌊agent.money * maxSpendPercentOf agent / ms.current_price⌋ : ℤ) : ℚ) :=
            le_trans (min_le_left _ _) (min_le_right _ _)
          have hle2 : buyCap agent ms ⟨Action.buy, q, note⟩ ≤ ms.seller_inventory :=
            min_le_right _ _
          show min (min (max 0 ((⌊buyCap agent ms ⟨Action.buy, q, note⟩⌋ : ℤ) : ℚ)) _) _
            = buyCap agent ms ⟨Action.buy, q, note⟩
          rw [hint, max_eq_right h0, min_eq_left hle1, min_eq_left hle2]
        rw [hfix, if_pos hq]
      · rw [if_neg hq]
        have hz : buyCap agent ms ⟨Action.buy, q, note⟩ = 0 :=
          le_antisymm (not_lt.mp hq) h0
        rw [hz]
        exact sanitizeEntry_wait agents ms aid _ agent hl rfl
    | sell =>
      rw [sanitizeEntry_sell agents ms aid _ agent hl rfl] at h
      obtain rfl := (Option.some.inj h).symm
      have hint : IsIntQ (specSellCap agent ⟨Action.sell, q, note⟩) :=
        specSellCap_int _ hinvint
      have h0 : 0 ≤ specSellCap agent ⟨Action.sell, q, note⟩ :=
        specSellCap_nonneg _ hinv
      by_cases hq : 0 < specSellCap agent ⟨Action.sell, q, note⟩
      · rw [if_pos hq]
        rw [sanitizeEntry_sell agents ms aid _ agent hl rfl]
        have hfix : specSellCap agent
            ⟨Action.sell, specSellCap agent ⟨Action.sell, q, note⟩, note⟩
              = specSellCap agent ⟨Action.sell, q, note⟩ := by
          have hle1 : specSellCap agent ⟨Action.sell, q, note⟩ ≤ agent.inventory :=
            le_trans (min_le_left _ _) (min_le_right _ _)
          have hle2 : specSellCap agent ⟨Action.sell, q, note⟩
              ≤ ((⌈agent.inventory * (8/100)⌉ : ℤ) : ℚ) :=
            min_le_right _ _
          show min (min (max 0 ((⌊specSellCap agent ⟨Action.sell, q, note⟩⌋ : ℤ) : ℚ)) _) _
            = specSellCap agent ⟨Action.sell, q, note⟩
          rw [hint, max_eq_right h0, min_eq_left hle1, min_eq_left hle2]
        rw [hfix, if_pos hq]
      · rw [if_neg hq]
        have hz : specSellCap agent ⟨Action.sell, q, note⟩ = 0 :=
          le_antisymm (not_lt.mp hq) h0
        rw [hz]
        exact sanitizeEntry_wait agents ms aid _ agent hl rfl
    | wait =>
      rw [sanitizeEntry_wait agents ms aid _ agent hl rfl] at h
      obtain rfl := (Option.some.inj h).symm
      exact sanitizeEntry_wait agents ms aid _ agent hl rfl

theorem filterMap_fixed_idem {α : Type _} (f : α → Option α)
    (hf : ∀ x y, f x = some y → f y = some y) :
    ∀ l : List α, (l.filterMap f).filterMap f = l.filterMap f := by
  intro l
  induction l with
  | nil => rfl
  | cons x xs ih =>
    cases hx : f x with
    | none => simp [List.filterMap_cons, hx, ih]
    | some y => simp [List.filterMap_cons, hx, hf x y hx, ih]

/-- Claim C8: the decision sanitizer is idempotent — sanitizing the result
of sanitizing a decision map with the same registry and market state yields
the same map.  The hypotheses are the typing of the spec's data model (§3):
price positive, seller inventory a nonnegative integer, and each registered
participant's balance nonnegative, holdings a nonnegative integer, and spend
fraction nonnegative. -/
theorem claim_C8_sanitize_idempotent (agents : List (String × AgentState))
    (ms : MarketState) (decisions : List (String × Decision))
    (hms : MarketWF ms) (hag : ∀ p ∈ agents, AgentWF p.2) :
    sanitizeDecisions agents ms (sanitizeDecisions agents ms decisions)
      = sanitizeDecisions agents ms decisions :=
  filterMap_fixed_idem _ (sanitizeEntry_fixed agents ms hms hag) decisions

/-- Witness for C8 on the concrete buy-clamp scenario data plus a sell and a
wait request. -/
theorem claim_C8_witness :
    MarketWF c7Market ∧ (∀ p ∈ [("buyer_1", c7Agent)], AgentWF p.2) ∧
    sanitizeDecisions [("buyer_1", c7Agent)] c7Market
        (sanitizeDecisions [("buyer_1", c7Agent)] c7Market
          [("buyer_1", { action := Action.buy, quantity := 1000, note := "" })])
      = sanitizeDecisions [("buyer_1", c7Agent)] c7Market
          [("buyer_1", { action := Action.buy, quantity := 1000, note := "" })] := by
  have hms : MarketWF c7Market := by
    refine ⟨by norm_num [c7Market], by norm_num [c7Market], ?_⟩
    norm_num [IsIntQ, c7Market]
  have hag : ∀ p ∈ [("buyer_1", c7Agent)], AgentWF p.2 := by
    intro p hp
    rw [List.mem_singleton] at hp
    subst hp
    refine ⟨by norm_num [c7Agent], by norm_num [c7Agent], by norm_num [IsIntQ, c7Agent], ?_⟩
    intro p hp
    simp only [c7Agent, Option.some.injEq] at hp
    rw [← hp]
    norm_num
  exact ⟨hms, hag, claim_C8_sanitize_idempotent _ _ _ hms hag⟩

/-! ## Field-preservation lemmas for the per-agent mutations -/

theorem pushAgentTickHistory_money (tick : ℕ) (price : ℚ) (a : AgentState) :
    (pushAgentTickHistory tick price a).money = a.money := rfl

theorem pushAgentTickHistory_inventory (tick : ℕ) (price : ℚ) (a : AgentState) :
    (pushAgentTickHistory tick price a).inventory = a.inventory := rfl

theorem pushAgentTickHistory_long_term (tick : ℕ) (price : ℚ) (a : AgentState) :
    (pushAgentTickHistory tick price a).long_term = a.long_term := rfl

theorem pushAgentTickHistory_actions (tick : ℕ) (price : ℚ) (a : AgentState)
    (h : a.history.actions.length ≤ 10) :
    (pushAgentTickHistory tick price a).history.actions = a.history.actions := by
  unfold pushAgentTickHistory
  simp only [if_neg (Nat.not_lt.mpr h)]

theorem applyBuyToAgent_money (tick : ℕ) (price qty cost : ℚ) (note : String)
    (a : AgentState) :
    (applyBuyToAgent tick price qty cost note a).money = a.money - cost := rfl

theorem applyBuyToAgent_inventory (tick : ℕ) (price qty cost : ℚ) (note : String)
    (a : AgentState) :
    (applyBuyToAgent tick price qty cost note a).inventory = a.inventory + qty := rfl

theorem applySellToAgent_money (tick : ℕ) (price qty revenue : ℚ) (note : String)
    (a : AgentState) :
    (applySellToAgent tick price qty revenue note a).money = a.money + revenue := rfl

theorem applySellToAgent_inventory (tick : ℕ) (price qty revenue : ℚ) (note : String)
    (a : AgentState) :
    (applySellToAgent tick price qty revenue note a).inventory = a.inventory - qty := rfl

/-! ## Skip lemmas for the decision loop -/

/-- A buy iteration that is not fully applied (missing instance, failed
guard, or settlement not reporting success) leaves the loop state unchanged
or performs only the end-of-iteration bookkeeping. -/
theorem applyDecision_buy_skip (instances : List String)
    (settle : String → Action → SettleResult) (tick : ℕ) (acc : TickAcc)
    (agentId : String) (q : ℚ) (note : String) (agent : AgentState)
    (hq : 0 < q) (hl : lookupAgent acc.agents agentId = some agent)
    (hskip : instances.contains agentId = false
      ∨ ¬(q ≤ acc.market.seller_inventory ∧ q * acc.market.current_price ≤ agent.money)
      ∨ settle agentId Action.buy ≠ SettleResult.ok) :
    applyDecision instances settle tick acc (agentId, ⟨Action.buy, q, note⟩) = acc
    ∨ applyDecision instances settle tick acc (agentId, ⟨Action.buy, q, note⟩)
        = { acc with agents := (updateAgent acc.agents agentId
            (pushAgentTickHistory tick acc.market.current_price)) } := by
  cases hc : instances.contains agentId with
  | false =>
    left
    simp only [applyDecision, hl, hc]
    simp [hq]
  | true =>
    by_cases hg : q ≤ acc.market.seller_inventory ∧ q * acc.market.current_price ≤ agent.money
    · have hs : settle agentId Action.buy ≠ SettleResult.ok := by
        rcases hskip with h | h | h
        · rw [hc] at h; exact absurd h (by simp)
        · exact absurd hg h
        · exact h
      cases hsv : settle agentId Action.buy with
      | ok => exact absurd hsv hs
      | fail =>
        left
        simp only [applyDecision, hl, hc]
        simp [hq, hg, hsv]
      | err =>
        right
        simp only [applyDecision, hl, hc]
        simp [hq, hg, hsv]
    · right
      simp only [applyDecision, hl, hc]
      simp [hq, hg]

/-- The sell-side analogue of `applyDecision_buy_skip`. -/
theorem applyDecision_sell_skip (instances : List String)
    (settle : String → Action → SettleResult) (tick : ℕ) (acc : TickAcc)
    (agentId : String) (q : ℚ) (note : String) (agent : AgentState)
    (hq : 0 < q) (hl : lookupAgent acc.agents agentId = some agent)
    (hskip : instances.contains agentId = false
      ∨ ¬(q ≤ agent.inventory)
      ∨ settle agentId Action.sell ≠ SettleResult.ok) :
    applyDecision instances settle tick acc (agentId, ⟨Action.sell, q, note⟩) = acc
    ∨ applyDecision instances settle tick acc (agentId, ⟨Action.sell, q, note⟩)
        = { acc with agents := (updateAgent acc.agents agentId
            (pushAgentTickHistory tick acc.market.current_price)) } := by
  cases hc : instances.contains agentId with
  | false =>
    left
    simp only [applyDecision, hl, hc]
    simp [hq]
  | true =>
    by_cases hg : q ≤ agent.inventory
    · have hs : settle agentId Action.sell ≠ SettleResult.ok := by
        rcases hskip with h | h | h
        · rw [hc] at h; exact absurd h (by simp)
        · exact absurd hg h
        · exact h
      cases hsv : settle agentId Action.sell with
      | ok => exact absurd hsv hs
      | fail =>
        left
        simp only [applyDecision, hl, hc]
        simp [hq, hg, hsv]
      | err =>
        right
        simp only [applyDecision, hl, hc]
        simp [hq, hg, hsv]
    · right
      simp only [applyDecision, hl, hc]
      simp [hq, hg]

/-- From either skip shape, everything but the skipped participant's
price-history bookkeeping is unchanged: the market state, the transaction
log, the demand/supply accumulators, and the participant's balance,
holdings, long-term statistics and action history. -/
theorem tickAcc_skip_fields (acc : TickAcc) (agentId : String) (agent : AgentState)
    (tick : ℕ) (price : ℚ)
    (hl : lookupAgent acc.agents agentId = some agent)
    (hlen : agent.history.actions.length ≤ 10)
    (acc' : TickAcc)
    (hshape : acc' = acc ∨ acc' = { acc with agents := (updateAgent acc.agents agentId
        (pushAgentTickHistory tick price)) }) :
    acc'.market = acc.market ∧ acc'.transactions = acc.transactions ∧
    acc'.totalDemand = acc.totalDemand ∧ acc'.totalSupply = acc.totalSupply ∧
    ∃ a', lookupAgent acc'.agents agentId = some a' ∧
      a'.money = agent.money ∧ a'.inventory = agent.inventory ∧
      a'.long_term = agent.long_term ∧
      a'.history.actions = agent.history.actions := by
  rcases hshape with rfl | rfl
  · exact ⟨rfl, rfl, rfl, rfl, agent, hl, rfl, rfl, rfl, rfl⟩
  · refine ⟨rfl, rfl, rfl, rfl, pushAgentTickHistory tick price agent, ?_, rfl, rfl, rfl,
      pushAgentTickHistory_actions tick price agent hlen⟩
    show lookupAgent (updateAgent acc.agents agentId (pushAgentTickHistory tick price)) agentId
      = some (pushAgentTickHistory tick price agent)
    rw [lookupAgent_updateAgent_self, hl]
    rfl

/-! ## Claim C10 — application-time re-validation of buys -/

/-- Claim C10: within a tick, a sanitized buy is re-validated at application
time against the current (mid-tick) seller inventory and the participant's
current balance; when the guard fails — for instance because an earlier buy
in the same tick consumed inventory or funds — the buy is skipped silently:
the market state, transaction log and demand/supply accumulators are
unchanged, and the participant's balance, holdings, long-term statistics and
action history are unchanged (only the uniform end-of-iteration
price-history bookkeeping runs).  The bound on the action history is the
data model's 10-entry window. -/
theorem claim_C10_buy_revalidation (instances : List String)
    (settle : String → Action → SettleResult) (tick : ℕ) (acc : TickAcc)
    (agentId : String) (q : ℚ) (note : String) (agent : AgentState)
    (hq : 0 < q) (hl : lookupAgent acc.agents agentId = some agent)
    (hguard : ¬(q ≤ acc.market.seller_inventory ∧
        q * acc.market.current_price ≤ agent.money))
    (hlen : agent.history.actions.length ≤ 10) :
    (applyDecision instances settle tick acc (agentId, ⟨Action.buy, q, note⟩)).market
        = acc.market ∧
    (applyDecision instances settle tick acc (agentId, ⟨Action.buy, q, note⟩)).transactions
        = acc.transactions ∧
    (applyDecision instances settle tick acc (agentId, ⟨Action.buy, q, note⟩)).totalDemand
        = acc.totalDemand ∧
    (applyDecision instances settle tick acc (agentId, ⟨Action.buy, q, note⟩)).totalSupply
        = acc.totalSupply ∧
    ∃ a', lookupAgent
        (applyDecision instances settle tick acc (agentId, ⟨Action.buy, q, note⟩)).agents
          agentId = some a' ∧
      a'.money = agent.money ∧ a'.inventory = agent.inventory ∧
      a'.long_term = agent.long_term ∧
      a'.history.actions = agent.history.actions :=
  tickAcc_skip_fields acc agentId agent tick acc.market.current_price hl hlen _
    (applyDecision_buy_skip instances settle tick acc agentId q note agent hq hl
      (Or.inr (Or.inl hguard)))

/-- Witness for C10: a buy of 5 against 3 remaining units is skipped. -/
theorem claim_C10_witness :
    ((0 : ℚ) < 5) ∧
    (¬((5 : ℚ) ≤ c10Acc.market.seller_inventory ∧
        (5 : ℚ) * c10Acc.market.current_price ≤ c7Agent.money)) ∧
    (applyDecision ["buyer_1"] (fun _ _ => SettleResult.ok) 5 c10Acc
        ("buyer_1", ⟨Action.buy, 5, ""⟩)).market = c10Acc.market ∧
    (applyDecision ["buyer_1"] (fun _ _ => SettleResult.ok) 5 c10Acc
        ("buyer_1", ⟨Action.buy, 5, ""⟩)).transactions = c10Acc.transactions := by
  have hg : ¬((5 : ℚ) ≤ c10Acc.market.seller_inventory ∧
      (5 : ℚ) * c10Acc.market.current_price ≤ c7Agent.money) := by
    norm_num [c10Acc]
  have h := claim_C10_buy_revalidation ["buyer_1"] (fun _ _ => SettleResult.ok) 5 c10Acc
    "buyer_1" 5 "" c7Agent (by norm_num) (by simp [c10Acc, lookupAgent]) hg
    (by simp [c7Agent, emptyHistory])
  exact ⟨by norm_num, hg, h.1, h.2.1⟩

/-! ## Claim C5 — settlement failure is isolated -/

/-- Claim C5: if the settlement call for a participant's applied decision
reports failure or throws, no balance, holdings, inventory or revenue
mutation for that decision is applied, no transaction is recorded for it,
the participant is skipped without retry (the oracle is consulted at most
once for the entry), and the loop continues with the remaining participants
(the final conjunct is the loop step itself).  The conclusion lists what is
unchanged: market state, transaction log, demand/supply accumulators, and
the participant's balance, holdings, long-term statistics and action
history. -/
theorem claim_C5_settlement_isolated (instances : List String)
    (settle : String → Action → SettleResult) (tick : ℕ) (acc : TickAcc)
    (agentId : String) (d : Decision) (agent : AgentState)
    (rest : List (String × Decision))
    (hact : d.action = Action.buy ∨ d.action = Action.sell)
    (hq : 0 < d.quantity)
    (hl : lookupAgent acc.agents agentId = some agent)
    (hs : settle agentId d.action ≠ SettleResult.ok)
    (hlen : agent.history.actions.length ≤ 10) :
    (applyDecision instances settle tick acc (agentId, d)).market = acc.market ∧
    (applyDecision instances settle tick acc (agentId, d)).transactions
        = acc.transactions ∧
    (applyDecision instances settle tick acc (agentId, d)).totalDemand
        = acc.totalDemand ∧
    (applyDecision instances settle tick acc (agentId, d)).totalSupply
        = acc.totalSupply ∧
    (∃ a', lookupAgent (applyDecision instances settle tick acc (agentId, d)).agents
          agentId = some a' ∧
      a'.money = agent.money ∧ a'.inventory = agent.inventory ∧
      a'.long_term = agent.long_term ∧
      a'.history.actions = agent.history.actions) ∧
    ((agentId, d) :: rest).foldl (applyDecision instances settle tick) acc
        = rest.foldl (applyDecision instances settle tick)
            (applyDecision instances settle tick acc (agentId, d)) := by
  obtain ⟨act, q, note⟩ := d
  dsimp only at hact hq hs
  rcases hact with rfl | rfl
  · have h := tickAcc_skip_fields acc agentId agent tick acc.market.current_price hl hlen _
      (applyDecision_buy_skip instances settle tick acc agentId q note agent hq hl
        (Or.inr (Or.inr hs)))
    exact ⟨h.1, h.2.1, h.2.2.1, h.2.2.2.1, h.2.2.2.2, rfl⟩
  · have h := tickAcc_skip_fields acc agentId agent tick acc.market.current_price hl hlen _
      (applyDecision_sell_skip instances settle tick acc agentId q note agent hq hl
        (Or.inr (Or.inr hs)))
    exact ⟨h.1, h.2.1, h.2.2.1, h.2.2.2.1, h.2.2.2.2, rfl⟩

/-- Witness for C5: a buy of 5 that passes both guards but whose settlement
parses `success:false` leaves the loop state untouched. -/
theorem claim_C5_witness :
    ((fun (_ : String) (_ : Action) => SettleResult.fail) "buyer_1" Action.buy
        ≠ SettleResult.ok) ∧
    (applyDecision ["buyer_1"] (fun _ _ => SettleResult.fail) 5 c5Acc
        ("buyer_1", ⟨Action.buy, 5, ""⟩)).market = c5Acc.market ∧
    (applyDecision ["buyer_1"] (fun _ _ => SettleResult.fail) 5 c5Acc
        ("buyer_1", ⟨Action.buy, 5, ""⟩)).transactions = c5Acc.transactions := by
  have h := claim_C5_settlement_isolated ["buyer_1"] (fun _ _ => SettleResult.fail) 5 c5Acc
    "buyer_1" ⟨Action.buy, 5, ""⟩ c7Agent [] (Or.inl rfl) (by norm_num)
    (by simp [c5Acc, lookupAgent]) (by simp) (by simp [c7Agent, emptyHistory])
  exact ⟨by simp, h.1, h.2.1⟩

/-! ## Claim C1 — the numeric invariants -/

theorem agentsNonneg_updateAgent {l : List (String × AgentState)} {k : String}
    {f : AgentState → AgentState} (h : agentsNonneg l)
    (hf : ∀ a, lookupAgent l k = some a → 0 ≤ (f a).money ∧ 0 ≤ (f a).inventory) :
    agentsNonneg (updateAgent l k f) := by
  induction l with
  | nil => intro x hx; simp [updateAgent] at hx
  | cons p rest ih =>
    obtain ⟨k', a⟩ := p
    by_cases hk : k' = k
    · subst hk
      intro x hx
      rw [updateAgent, if_pos rfl] at hx
      rcases List.mem_cons.mp hx with rfl | hx
      · exact hf a (by rw [lookupAgent, if_pos rfl])
      · exact h _ (List.mem_cons_of_mem _ hx)
    · intro x hx
      rw [updateAgent, if_neg hk] at hx
      rcases List.mem_cons.mp hx with rfl | hx
      · exact h _ (List.mem_cons_self _ _)
      · refine ih (fun y hy => h y (List.mem_cons_of_mem _ hy)) ?_ x hx
        intro a' ha'
        exact hf a' (by rw [lookupAgent, if_neg hk]; exact ha')

theorem AccInv_update_bookkeeping (acc : TickAcc) (k : String)
    (f : AgentState → AgentState) (h : AccInv acc)
    (hf : ∀ a, (f a).money = a.money ∧ (f a).inventory = a.inventory) :
    AccInv { acc with agents := (updateAgent acc.agents k f) } := by
  refine ⟨h.1, h.2.1, agentsNonneg_updateAgent h.2.2 ?_⟩
  intro a ha
  have hm := h.2.2 _ (lookupAgent_mem ha)
  rw [(hf a).1, (hf a).2]
  exact hm

/-- One iteration of the decision loop preserves the numeric invariant:
the application-time guards make every mutation safe. -/
theorem AccInv_applyDecision (instances : List String)
    (settle : String → Action → SettleResult) (tick : ℕ) (acc : TickAcc)
    (entry : String × Decision) (h : AccInv acc) :
    AccInv (applyDecision instances settle tick acc entry) := by
  obtain ⟨hsi, hpr, hag⟩ := h
  obtain ⟨aid, act, q, note⟩ := entry
  cases act with
  | buy =>
    by_cases hq : 0 < q
    · cases hl : lookupAgent acc.agents aid with
      | none =>
        simp only [applyDecision, hl]
        simp only [hq]
        cases hc : instances.contains aid <;> simp <;> exact ⟨hsi, hpr, hag⟩
      | some agent =>
        cases hc : instances.contains aid with
        | false =>
          simp only [applyDecision, hl, hc]
          simp [hq]
          exact ⟨hsi, hpr, hag⟩
        | true =>
          by_cases hg : q ≤ acc.market.seller_inventory ∧
              q * acc.market.current_price ≤ agent.money
          · cases hsv : settle aid Action.buy with
            | fail =>
              simp only [applyDecision, hl, hc]
              simp [hq, hg.1, hg.2, hsv]
              exact ⟨hsi, hpr, hag⟩
            | err =>
              simp only [applyDecision, hl, hc]
              simp [hq, hg.1, hg.2, hsv]
              exact AccInv_update_bookkeeping acc aid _ ⟨hsi, hpr, hag⟩
                (fun a => ⟨rfl, rfl⟩)
            | ok =>
              simp only [applyDecision, hl, hc]
              simp [hq, hg.1, hg.2, hsv]
              refine ⟨sub_nonneg.mpr hg.1, hpr, agentsNonneg_updateAgent hag ?_⟩
              intro a ha
              rw [hl] at ha
              obtain rfl := Option.some.inj ha
              exact ⟨sub_nonneg.mpr hg.2,
                add_nonneg (hag _ (lookupAgent_mem hl)).2 hq.le⟩
          · simp only [applyDecision, hl, hc]
            simp [hq, hg]
            exact AccInv_update_bookkeeping acc aid _ ⟨hsi, hpr, hag⟩
              (fun a => ⟨rfl, rfl⟩)
    · cases hl : lookupAgent acc.agents aid with
      | none =>
        simp only [applyDecision, hl]
        simp [hq]
        exact ⟨hsi, hpr, hag⟩
      | some agent =>
        simp only [applyDecision, hl]
        simp [hq]
        exact AccInv_update_bookkeeping acc aid _ ⟨hsi, hpr, hag⟩
          (fun a => ⟨rfl, rfl⟩)
  | sell =>
    by_cases hq : 0 < q
    · cases hl : lookupAgent acc.agents aid with
      | none =>
        simp only [applyDecision, hl]
        simp only [hq]
        cases hc : instances.contains aid <;> simp <;> exact ⟨hsi, hpr, hag⟩
      | some agent =>
        cases hc : instances.contains aid with
        | false =>
          simp only [applyDecision, hl, hc]
          simp [hq]
          exact ⟨hsi, hpr, hag⟩
        | true =>
          by_cases hg : q ≤ agent.inventory
          · cases hsv : settle aid Action.sell with
            | fail =>
              simp only [applyDecision, hl, hc]
              simp [hq, hg, hsv]
              exact ⟨hsi, hpr, hag⟩
            | err =>
              simp only [applyDecision, hl, hc]
              simp [hq, hg, hsv]
              exact AccInv_update_bookkeeping acc aid _ ⟨hsi, hpr, hag⟩
                (fun a => ⟨rfl, rfl⟩)
            | ok =>
              simp only [applyDecision, hl, hc]
              simp [hq, hg, hsv]
              refine ⟨add_nonneg hsi hq.le, hpr, agentsNonneg_updateAgent hag ?_⟩
              intro a ha
              rw [hl] at ha
              obtain rfl := Option.some.inj ha
              exact ⟨add_nonneg (hag _ (lookupAgent_mem hl)).1
                  (mul_nonneg hq.le hpr),
                sub_nonneg.mpr hg⟩
          · simp only [applyDecision, hl, hc]
            simp [hq, hg]
            exact AccInv_update_bookkeeping acc aid _ ⟨hsi, hpr, hag⟩
              (fun a => ⟨rfl, rfl⟩)
    · cases hl : lookupAgent acc.agents aid with
      | none =>
        simp only [applyDecision, hl]
        simp [hq]
        exact ⟨hsi, hpr, hag⟩
      | some agent =>
        simp only [applyDecision, hl]
        simp [hq]
        exact AccInv_update_bookkeeping acc aid _ ⟨hsi, hpr, hag⟩
          (fun a => ⟨rfl, rfl⟩)
  | wait =>
    cases hl : lookupAgent acc.agents aid with
    | none =>
      simp only [applyDecision, hl]
      simp
      exact ⟨hsi, hpr, hag⟩
    | some agent =>
      simp only [applyDecision, hl]
      simp
      exact AccInv_update_bookkeeping acc aid _ ⟨hsi, hpr, hag⟩
        (fun a => ⟨rfl, rfl⟩)

theorem AccInv_foldl (instances : List String)
    (settle : String → Action → SettleResult) (tick : ℕ)
    (l : List (String × Decision)) :
    ∀ acc : TickAcc, AccInv acc →
      AccInv (l.foldl (applyDecision instances settle tick) acc) := by
  induction l with
  | nil => intro acc h; exact h
  | cons x xs ih =>
    intro acc h
    rw [List.foldl_cons]
    exact ih _ (AccInv_applyDecision instances settle tick acc x h)

theorem executeTick_pricingEngine (e : MarketEngine)
    (settle : String → Action → SettleResult) (noise : ℚ)
    (decisions : List (String × Decision)) :
    (executeTick e settle noise decisions).1.pricingEngine = e.pricingEngine := rfl

/-- One `executeTick` preserves the engine invariant, provided the
configured price floor is nonnegative. -/
theorem EngineInv_executeTick (e : MarketEngine)
    (settle : String → Action → SettleResult) (noise : ℚ)
    (decisions : List (String × Decision))
    (h : EngineInv e) (hmin : 0 ≤ e.pricingEngine.minPrice) :
    EngineInv (executeTick e settle noise decisions).1 := by
  obtain ⟨hsi, hpr, hag⟩ := h
  have hacc : AccInv ((sanitizeDecisions e.agents
      { e.marketState with tick := e.marketState.tick + 1 } decisions).foldl
        (applyDecision e.agentInstances settle (e.marketState.tick + 1))
        { agents := e.agents,
          market := { e.marketState with tick := e.marketState.tick + 1 },
          transactions := [], totalDemand := 0, totalSupply := 0 }) :=
    AccInv_foldl _ _ _ _ _ ⟨hsi, hpr, hag⟩
  refine ⟨hacc.1, ?_, hacc.2.2⟩
  exact le_trans hmin (le_max_left _ _)

/-- Claim C1: starting from an engine whose seller inventory, price and
participant balances/holdings are nonnegative (as at construction), after
every `executeTick` of every sequence of executed ticks the seller inventory
is ≥ 0 and every registered participant's balance and holdings are ≥ 0
(the conclusion `EngineInv` is exactly these conjuncts plus the price).
The statement quantifies over the whole input sequence, so the invariant
after any intermediate tick is obtained by instantiating it with the prefix
of inputs up to that tick.  `hmin` is the nonnegativity of the configured
`MIN_PRICE` floor (default 0.0001). -/
theorem claim_C1_invariants (e : MarketEngine) (inputs : List TickInput)
    (h : EngineInv e) (hmin : 0 ≤ e.pricingEngine.minPrice) :
    EngineInv (runTicks e inputs) := by
  induction inputs generalizing e with
  | nil => exact h
  | cons i rest ih =>
    rw [runTicks, List.foldl_cons]
    exact ih _ (EngineInv_executeTick e i.settle i.noise i.decisions h hmin)
      (by rw [executeTick_pricingEngine]; exact hmin)

/-- Witness for C1: one executed tick of the concrete engine, with a buy of
3 units settled successfully. -/
theorem claim_C1_witness :
    EngineInv c1Engine ∧ (0 : ℚ) ≤ c1Engine.pricingEngine.minPrice ∧
    EngineInv (runTicks c1Engine
      [{ settle := fun _ _ => SettleResult.ok, noise := 1/200,
         decisions := [("buyer_1", ⟨Action.buy, 3, ""⟩)] }]) := by
  have h : EngineInv c1Engine := by
    refine ⟨by norm_num [c1Engine], by norm_num [c1Engine], ?_⟩
    intro p hp
    simp only [c1Engine] at hp
    rw [List.mem_singleton] at hp
    subst hp
    exact ⟨by norm_num [c7Agent], by norm_num [c7Agent]⟩
  have hmin : (0 : ℚ) ≤ c1Engine.pricingEngine.minPrice := by norm_num [c1Engine]
  exact ⟨h, hmin, claim_C1_invariants c1Engine _ h hmin⟩

end LocusMarket

